import Mathlib

/-!
# Verification of `blobmsg_json.c` (libubox)

A shallow embedding of the JSON ↔ blob-attribute codec in `src/blobmsg_json.c`,
together with theorems settling the specification claims about it.

Modelling conventions:
* C byte strings are `List Nat` (each entry a byte value `< 256`); a C string is
  the list of its bytes before the NUL terminator, so the lists never contain `0`.
* The growable output buffer `struct strbuf` is the structure `Strbuf` below;
  heap memory is modelled as the list of bytes of the allocation, and the
  results of successive `malloc`/`realloc` calls are supplied by an explicit
  oracle (`List Bool`, empty list = every allocation succeeds).  Freshly
  allocated memory, uninitialized in C, is modelled as zero bytes.
* Machine integers (`int` lengths, positions) are `Nat`: in this unit they are
  always non-negative and far from overflow.
* The blob-attribute container, its accessors and the JSON tree parser live in
  other units of the repository (`blob.h`/`blobmsg.h`/json-c); where a claim
  needs them they are modelled from the spec, each such definition carrying a
  doc comment starting with `Modelled from the spec:`.
-/

mutual
/-- Binary attributes (spec §3 "Binary Attribute"): a type tag, an optional
name (empty list = absent/anonymous) and a payload that is a fixed-width
integer, a byte string, or a concatenated sequence of child attributes.
`BlobAttrList` is the concatenated child sequence (a mutual inductive so that
all functions below are structurally recursive and compute by `decide`). -/
inductive BlobAttr where
  | int8 (name : List Nat) (v : Nat)
  | int16 (name : List Nat) (v : Nat)
  | int32 (name : List Nat) (v : Nat)
  | int64 (name : List Nat) (v : Nat)
  | str (name : List Nat) (val : List Nat)
  | array (name : List Nat) (children : BlobAttrList)
  | table (name : List Nat) (children : BlobAttrList)
  deriving DecidableEq
inductive BlobAttrList where
  | nil
  | cons (a : BlobAttr) (rest : BlobAttrList)
  deriving DecidableEq
end

/-- Append of child sequences, used to state partial-commit theorems. -/
def BlobAttrList.append : BlobAttrList → BlobAttrList → BlobAttrList
  | .nil, ys => ys
  | .cons a xs, ys => .cons a (xs.append ys)

/-- `blobmsg_name(attr)`: the attribute's name. -/
def BlobAttr.name : BlobAttr → List Nat
  | .int8 n _ | .int16 n _ | .int32 n _ | .int64 n _ | .str n _
  | .array n _ | .table n _ => n

/-- Scalar (non-recursive) attributes: everything except nested arrays/tables. -/
def BlobAttr.isScalar : BlobAttr → Bool
  | .int8 .. | .int16 .. | .int32 .. | .int64 .. | .str .. => true
  | .array .. | .table .. => false

/-- `blobmsg_data(attr)` for nested attributes: the child sequence.  For
non-nested attributes the drivers in this unit never take this view. -/
def BlobAttr.children : BlobAttr → BlobAttrList
  | .array _ cs | .table _ cs => cs
  | _ => .nil

mutual
/-- Modelled from the spec: `blob_len(attr)`, the payload length of a binary
attribute, from §3's Binary Attribute: fixed 1/2/4/8 bytes for the integer
tags, the bytes plus terminator for a string, and for a nested array/table the
total size of the concatenated child records.  (`blob.h` is not part of this
unit.) -/
def blob_len : BlobAttr → Nat
  | .int8 .. => 1
  | .int16 .. => 2
  | .int32 .. => 4
  | .int64 .. => 8
  | .str _ v => v.length + 1
  | .array _ cs | .table _ cs => blobLenList cs

/-- Modelled from the spec: total size of a concatenated sequence of child
records, each a tag, a length field, the optional name (with terminator) and
its payload. -/
def blobLenList : BlobAttrList → Nat
  | .nil => 0
  | .cons a rest => 5 + a.name.length + 1 + blob_len a + blobLenList rest
end

/-- The output text buffer `struct strbuf`: capacity `len`, write cursor
`pos`, the allocation `buf` (`none` = NULL pointer), and the allocation
oracle (results of the forthcoming `malloc`/`realloc` calls; an exhausted
oracle means every further allocation succeeds).  The `custom_format`/`priv`
pair of the C struct is passed as an explicit parameter to the formatting
functions instead (a constant field never mutated). -/
structure Strbuf where
  len : Nat
  pos : Nat
  buf : Option (List Nat)
  oracle : List Bool
  deriving DecidableEq

/-- Next allocation outcome: an exhausted oracle yields success. -/
def oracleNext : List Bool → Bool × List Bool
  | [] => (true, [])
  | b :: r => (b, r)

/-- `realloc(old, n)`: on success the block holds the old bytes truncated or
zero-extended (fresh bytes are uninitialized in C, modelled as zero) with
length exactly `n`; on failure the result is NULL. -/
def reallocFn (old : Option (List Nat)) (n : Nat) (ok : Bool) : Option (List Nat) :=
  if ok then some (List.take n (old.getD [] ++ List.replicate n 0)) else none

/-- `memcpy(buf + pos, c, len)`: overwrite `c.length` bytes at offset `pos`.
Writes past the end of the modelled block extend it (in C this is the
out-of-bounds write the position/capacity invariant is meant to prevent). -/
def memWrite (l : List Nat) (pos : Nat) (c : List Nat) : List Nat :=
  (l.take pos ++ List.replicate (pos - l.length) 0) ++ c ++ l.drop (pos + c.length)

/-- `blobmsg_puts(s, c, len)` (src lines 103–117): no-op on empty input;
grows the capacity by a single fixed increment of 16 when the write would
reach it, failing (NULL buffer, `false`) if the `realloc` fails; then copies
the bytes and advances the cursor.  A copy into a NULL buffer (only reachable
after an earlier ignored failure) is undefined in C; the model writes into an
empty block. -/
def blobmsg_puts (s : Strbuf) (c : List Nat) : Strbuf × Bool :=
  if c.length = 0 then (s, true)
  else
    let grow := s.pos + c.length ≥ s.len
    let (s, failed) :=
      if grow then
        let newLen := s.len + 16
        let (ok, o) := oracleNext s.oracle
        ({ s with len := newLen, oracle := o, buf := reallocFn s.buf newLen ok }, !ok)
      else (s, false)
    if failed then (s, false)
    else ({ s with buf := some (memWrite (s.buf.getD []) s.pos c), pos := s.pos + c.length }, true)

/-- The escape decision of `blobmsg_format_string`'s switch (src lines
129–151): the escape letter for a byte, or `none` for a byte copied verbatim.
The default case compares the `char` (signed on the reference targets, so
bytes ≥ 0x80 read as negative values) against `' '`. -/
def escChar (b : Nat) : Option Nat :=
  if b = 8 then some 98          -- '\b' → 'b'
  else if b = 10 then some 110   -- '\n' → 'n'
  else if b = 9 then some 116    -- '\t' → 't'
  else if b = 13 then some 114   -- '\r' → 'r'
  else if b = 34 ∨ b = 92 ∨ b = 47 then some b  -- '"', backslash, '/'
  else if (if b < 128 then (b : Int) else (b : Int) - 256) < 32 then some 117  -- 'u'
  else none

/-- The byte run emitted for one escape: `buf` is `"\u00"` with `buf[1]`
overwritten by the escape letter; for `'u'` the two hex digits are written at
`buf[4]` but the emitted length is 4, so only `\u00` is sent (src lines
159–167). -/
def escBytes (e : Nat) : List Nat :=
  if e = 117 then [92, e, 48, 48] else [92, e]

/-- The scan loop of `blobmsg_format_string` (src lines 125–170): `pending`
is the run of verbatim bytes since `last`; at each escape the pending run is
flushed (a no-op when empty, as in C where the flush is guarded by
`p > last`), then the escape bytes; at the end the final run is flushed. -/
def blobmsg_format_string_loop (s : Strbuf) (pending rest : List Nat) : Strbuf :=
  match rest with
  | [] => (blobmsg_puts s pending).1
  | b :: rest =>
    match escChar b with
    | none => blobmsg_format_string_loop s (pending ++ [b]) rest
    | some e =>
      let s := (blobmsg_puts s pending).1
      let s := (blobmsg_puts s (escBytes e)).1
      blobmsg_format_string_loop s [] rest

/-- `blobmsg_format_string` (src lines 119–172): opening quote, escaped body,
closing quote.  All `blobmsg_puts` results are discarded (the C function
returns void). -/
def blobmsg_format_string (s : Strbuf) (str : List Nat) : Strbuf :=
  let s := (blobmsg_puts s [34]).1
  let s := blobmsg_format_string_loop s [] str
  (blobmsg_puts s [34]).1

/-- Modelled from the spec: `blobmsg_check_attr(attr, false)` (from
`blobmsg.c`, outside this unit) validates structural well-formedness of a
binary attribute; every attribute of the tree embedding is well-formed by
construction, so the check holds. -/
def blobmsg_check_attr (_ : BlobAttr) (_ : Bool) : Bool := true

/-- `sprintf(buf, "%d", v)` for a value already non-negative and below
`2^15` ≤ INT_MAX (the promoted `uint8_t`/`uint16_t` reads): decimal text. -/
def sprintfU (v : Nat) : List Nat := (toString v).toList.map Char.toNat

/-- `sprintf(buf, "%d", *(uint32_t *)data)`: the 32-bit payload is consumed
by `%d` as a signed `int`, i.e. reinterpreted in two's complement. -/
def sprintfD32 (v : Nat) : List Nat :=
  (toString (if v < 2 ^ 31 then (v : Int) else (v : Int) - 2 ^ 32)).toList.map Char.toNat

/-- `sprintf(buf, "%lld", *(uint64_t *)data)`: the 64-bit payload is consumed
by `%lld` as a signed `long long`, i.e. reinterpreted in two's complement. -/
def sprintfD64 (v : Nat) : List Nat :=
  (toString (if v < 2 ^ 63 then (v : Int) else (v : Int) - 2 ^ 64)).toList.map Char.toNat

/-- The custom formatter binding: the `(blobmsg_json_format_t cb, void *priv)`
pair, modelled with `priv` absorbed into the closure. -/
abbrev FormatCb := Option (BlobAttr → Option (List Nat))

/-- The custom-format consultation of `blobmsg_format_element` (src lines
197–201): skipped in header mode, otherwise the bound callback's answer for
the attribute (`none` when no callback is bound or it declines). -/
def hookValue (cb : FormatCb) (attr : BlobAttr) (head : Bool) : Option (List Nat) :=
  if head then none
  else match cb with
    | some f => f attr
    | none => none

mutual
/-- `blobmsg_format_element` (src lines 176–231).  The well-formedness check
never fails on the tree embedding; in non-array context a non-empty name is
emitted as an escaped string followed by `":"`.  With `head` false the custom
formatter, when bound, is consulted before the tag switch for every attribute
and its replacement text emitted verbatim when it answers.  With `head` true
the custom formatter is skipped; the raw-record view `blob_data`/`blob_len`
that `head` selects in C is not representable in the tree embedding (and no
entry point of this unit passes `head = true`), so the payload view is used.
The two container cases are the body of `blobmsg_format_json_list` (src lines
233–248) — `"[ "`/`"{ "`, the children, `" ]"`/`" }"` — inlined so that the
mutual recursion is structural; the standalone wrapper
`blobmsg_format_json_list` below is definitionally the same. -/
def blobmsg_format_element (s : Strbuf) (cb : FormatCb) (attr : BlobAttr)
    (arr head : Bool) : Strbuf :=
  if !(blobmsg_check_attr attr false) then s
  else
    let s :=
      if !arr && !(attr.name.isEmpty) then
        let s := blobmsg_format_string s attr.name
        (blobmsg_puts s [58]).1
      else s
    match hookValue cb attr head with
    | some t => (blobmsg_puts s t).1
    | none =>
      match attr with
      | .int8 _ v => (blobmsg_puts s (sprintfU v)).1
      | .int16 _ v => (blobmsg_puts s (sprintfU v)).1
      | .int32 _ v => (blobmsg_puts s (sprintfD32 v)).1
      | .int64 _ v => (blobmsg_puts s (sprintfD64 v)).1
      | .str _ v => blobmsg_format_string s v
      | .array _ cs =>
        let s := (blobmsg_puts s [91, 32]).1
        let s := blobmsg_format_list_items s cb cs true true
        (blobmsg_puts s [32, 93]).1
      | .table _ cs =>
        let s := (blobmsg_puts s [123, 32]).1
        let s := blobmsg_format_list_items s cb cs false true
        (blobmsg_puts s [32, 125]).1

/-- The `__blob_for_each_attr` loop of `blobmsg_format_json_list` (src lines
240–246): `", "` before every child but the first, then the child element. -/
def blobmsg_format_list_items (s : Strbuf) (cb : FormatCb) (cs : BlobAttrList)
    (arr first : Bool) : Strbuf :=
  match cs with
  | .nil => s
  | .cons a rest =>
    let s := if !first then (blobmsg_puts s [44, 32]).1 else s
    let s := blobmsg_format_element s cb a arr false
    blobmsg_format_list_items s cb rest arr false
end

/-- `blobmsg_format_json_list` (src lines 233–248): `"[ "`/`"{ "`, the
children in order with `", "` between them, then `" ]"`/`" }"`. -/
def blobmsg_format_json_list (s : Strbuf) (cb : FormatCb) (cs : BlobAttrList)
    (arr : Bool) : Strbuf :=
  let s := (blobmsg_puts s (if arr then [91, 32] else [123, 32])).1
  let s := blobmsg_format_list_items s cb cs arr true
  (blobmsg_puts s (if arr then [32, 93] else [32, 125])).1

/-- The tail of `blobmsg_format_json_with_cb` (src lines 265–271): NULL when
the capacity is zero, else shrink the buffer to `pos + 1` bytes and write the
terminator.  A failing final `realloc` makes `s.buf[s.pos] = 0` a NULL
dereference in C (undefined); the model returns `none` there. -/
def strbufFinalize (s : Strbuf) : Option (List Nat) :=
  if s.len = 0 then none
  else
    let (ok, _) := oracleNext s.oracle
    match reallocFn s.buf (s.pos + 1) ok with
    | none => none
    | some l => some (l.set s.pos 0)

/-- `blobmsg_format_json_with_cb` (src lines 250–272): allocate the buffer
with the input's length as capacity hint, run the list or element pass, and
finalize per `strbufFinalize`. -/
def blobmsg_format_json_with_cb (attr : BlobAttr) (list : Bool) (cb : FormatCb)
    (oracle : List Bool) : Option (List Nat) :=
  let len0 := blob_len attr
  let (ok, o) := oracleNext oracle
  let s : Strbuf :=
    { len := len0, pos := 0
      buf := if ok then some (List.replicate len0 0) else none
      oracle := o }
  let s :=
    if list then blobmsg_format_json_list s cb attr.children false
    else blobmsg_format_element s cb attr false false
  strbufFinalize s

/-- Byte list of a Lean string literal (all our literals are ASCII). -/
def strBytes (s : String) : List Nat := s.toList.map Char.toNat

mutual
/-- The in-memory value tree produced by the external JSON parser (spec §3
"Value Tree Node"), as seen through json-c's `json_object`: `null` is the
NULL pointer json-c uses for a JSON null, and `double` stands for the node
kinds the encoder's switch has no case for. -/
inductive JsonNode where
  | object (members : JMembers)
  | array (elems : JElems)
  | str (v : List Nat)
  | bool (v : Bool)
  | int (v : Int)
  | null
  | double
  deriving DecidableEq
/-- The ordered members of an object node (name, value). -/
inductive JMembers where
  | nil
  | cons (key : List Nat) (v : JsonNode) (rest : JMembers)
  deriving DecidableEq
/-- The ordered elements of an array node. -/
inductive JElems where
  | nil
  | cons (v : JsonNode) (rest : JElems)
  deriving DecidableEq
end

/-- Whether a parsed root is an object (`json_object_get_type(obj) ==
json_type_object`). -/
def JsonNode.isObjectRoot : JsonNode → Bool
  | .object _ => true
  | _ => false

/-- Modelled from the spec: `blobmsg_add_string` (from `blobmsg.h`, outside
this unit) appends a string attribute to the container; it can fail on
allocation (next oracle entry), appending nothing.  Its status is returned
but the caller in this unit discards it. -/
def blobmsg_add_string (name v : List Nat) (o : List Bool) : BlobAttrList × List Bool :=
  let (ok, o) := oracleNext o
  (if ok then .cons (.str name v) .nil else .nil, o)

/-- Modelled from the spec: `blobmsg_add_u8`, an 8-bit integer attribute
append; same failure discipline as `blobmsg_add_string`. -/
def blobmsg_add_u8 (name : List Nat) (v : Nat) (o : List Bool) : BlobAttrList × List Bool :=
  let (ok, o) := oracleNext o
  (if ok then .cons (.int8 name v) .nil else .nil, o)

/-- `(uint32_t)` view of the C `int` that `json_object_get_int` returns. -/
def u32ofInt (v : Int) : Nat := (v % 2 ^ 32).toNat

/-- Modelled from the spec: `blobmsg_add_u32`, a 32-bit integer attribute
append; same failure discipline as `blobmsg_add_string`. -/
def blobmsg_add_u32 (name : List Nat) (v : Int) (o : List Bool) : BlobAttrList × List Bool :=
  let (ok, o) := oracleNext o
  (if ok then .cons (.int32 name (u32ofInt v)) .nil else .nil, o)

mutual
/-- `blobmsg_add_json_element` (src lines 40–72).  A NULL node fails before
writing anything; object/array nodes open a table/array scope, encode the
members, and close the scope even when a member failed (the scope with its
partial content is committed either way, the member's status is propagated);
string/boolean/integer nodes call the container append primitive and return
`true` without looking at its status; any other node kind fails without
writing. -/
def blobmsg_add_json_element (name : List Nat) (obj : JsonNode) (o : List Bool) :
    BlobAttrList × Bool × List Bool :=
  match obj with
  | .null => (.nil, false, o)
  | .object ms =>
    let (cs, ret, o) := blobmsg_add_object ms o
    (.cons (.table name cs) .nil, ret, o)
  | .array xs =>
    let (cs, ret, o) := blobmsg_add_array xs o
    (.cons (.array name cs) .nil, ret, o)
  | .str v =>
    let (as, o) := blobmsg_add_string name v o
    (as, true, o)
  | .bool v =>
    let (as, o) := blobmsg_add_u8 name (if v then 1 else 0) o
    (as, true, o)
  | .int v =>
    let (as, o) := blobmsg_add_u32 name v o
    (as, true, o)
  | .double => (.nil, false, o)

/-- `blobmsg_add_object` (src lines 19–26): encode every member with its
name, stopping at the first failure. -/
def blobmsg_add_object (ms : JMembers) (o : List Bool) : BlobAttrList × Bool × List Bool :=
  match ms with
  | .nil => (.nil, true, o)
  | .cons k v rest =>
    let (as1, ret, o) := blobmsg_add_json_element k v o
    if ret then
      let (as2, ret2, o) := blobmsg_add_object rest o
      (as1.append as2, ret2, o)
    else (as1, false, o)

/-- `blobmsg_add_array` (src lines 28–38): encode every element anonymously
(NULL name), stopping at the first failure. -/
def blobmsg_add_array (xs : JElems) (o : List Bool) : BlobAttrList × Bool × List Bool :=
  match xs with
  | .nil => (.nil, true, o)
  | .cons v rest =>
    let (as1, ret, o) := blobmsg_add_json_element [] v o
    if ret then
      let (as2, ret2, o) := blobmsg_add_array rest o
      (as1.append as2, ret2, o)
    else (as1, false, o)
end

/-- `blobmsg_add_json_from_string` (src lines 74–91).  The external
`json_tokener_parse` outcome is the parameter: `none` for an error pointer.
A successful parse whose root is not an object adds nothing and fails;
otherwise the root object's members are encoded directly into the
container. -/
def blobmsg_add_json_from_string (parsed : Option JsonNode) (o : List Bool) :
    BlobAttrList × Bool × List Bool :=
  match parsed with
  | none => (.nil, false, o)
  | some obj =>
    match obj with
    | .object ms => blobmsg_add_object ms o
    | _ => (.nil, false, o)

/-- Members of a Lean-side object tree appended, for stating partial-commit
properties over a split member list. -/
def JMembers.append : JMembers → JMembers → JMembers
  | .nil, ys => ys
  | .cons k v xs, ys => .cons k v (xs.append ys)

/-- Elements of a Lean-side array tree appended. -/
def JElems.append : JElems → JElems → JElems
  | .nil, ys => ys
  | .cons v xs, ys => .cons v (xs.append ys)

/-- Every member of the list encodes successfully (under the all-success
allocation oracle). -/
def JMembers.allOk : JMembers → Bool
  | .nil => true
  | .cons k v rest => (blobmsg_add_json_element k v []).2.1 && rest.allOk

/-- Every element of the list encodes successfully (under the all-success
allocation oracle). -/
def JElems.allOk : JElems → Bool
  | .nil => true
  | .cons v rest => (blobmsg_add_json_element [] v []).2.1 && rest.allOk

/-- The attributes produced by encoding each member in order (under the
all-success allocation oracle). -/
def JMembers.encoded : JMembers → BlobAttrList
  | .nil => .nil
  | .cons k v rest => (blobmsg_add_json_element k v []).1.append rest.encoded

/-- The attributes produced by encoding each element in order (under the
all-success allocation oracle). -/
def JElems.encoded : JElems → BlobAttrList
  | .nil => .nil
  | .cons v rest => (blobmsg_add_json_element [] v []).1.append rest.encoded

/-- C1 evidence: a single `blobmsg_puts` of 20 bytes into an empty buffer
grows the capacity by one fixed increment to 16, reports success, and leaves
the write cursor at 20 — beyond the capacity, violating
`position ≤ capacity` (in C this is a 4-byte write past the allocation). -/
theorem C1_puts_single_increment_overflow :
    (blobmsg_puts { len := 0, pos := 0, buf := some [], oracle := [] }
        (List.replicate 20 65)).2 = true
    ∧ (blobmsg_puts { len := 0, pos := 0, buf := some [], oracle := [] }
        (List.replicate 20 65)).1.len = 16
    ∧ (blobmsg_puts { len := 0, pos := 0, buf := some [], oracle := [] }
        (List.replicate 20 65)).1.pos = 20
    ∧ (blobmsg_puts { len := 0, pos := 0, buf := some [], oracle := [] }
        (List.replicate 20 65)).1.len
      < (blobmsg_puts { len := 0, pos := 0, buf := some [], oracle := [] }
        (List.replicate 20 65)).1.pos := by decide

/-- C2 counterexample: encoding the members of `{"a":1,"b":"x"}` and
formatting the result as a list does not produce the claimed text
`{ "a": 1, "b": "x" }` — the code emits no space after the `:` separator. -/
theorem C2_claimed_text_refuted :
    blobmsg_format_json_with_cb
      (.table []
        (blobmsg_add_object
          (.cons (strBytes "a") (.int 1)
            (.cons (strBytes "b") (.str (strBytes "x")) .nil)) []).1)
      true none []
    ≠ some (strBytes "\x7b \"a\": 1, \"b\": \"x\" \x7d" ++ [0]) := by decide

/-- C2 amended: the same pipeline encodes successfully and produces exactly
`{ "a":1, "b":"x" }` (escaped name, then `:` with no following space, then
the value). -/
theorem C2_encode_format_exact_text :
    (blobmsg_add_object
        (.cons (strBytes "a") (.int 1)
          (.cons (strBytes "b") (.str (strBytes "x")) .nil)) []).2.1 = true
    ∧ blobmsg_format_json_with_cb
        (.table []
          (blobmsg_add_object
            (.cons (strBytes "a") (.int 1)
              (.cons (strBytes "b") (.str (strBytes "x")) .nil)) []).1)
        true none []
      = some (strBytes "\x7b \"a\":1, \"b\":\"x\" \x7d" ++ [0]) := by decide

/-- C3 evidence: formatting the one-byte string 0x01 emits `"\u00"` — the
escape is truncated to four bytes, the two hex digits are never sent — and a
byte ≥ 0x80 (here 0xC3) goes down the same path instead of being copied
verbatim, because the signed `char` comparison `*p < ' '` holds for it. -/
theorem C3_escape_truncated_and_high_bytes_escaped :
    blobmsg_format_json_with_cb (.str [] [1]) false none []
      = some (strBytes "\"\\u00\"" ++ [0])
    ∧ blobmsg_format_json_with_cb (.str [] [195]) false none []
      = some (strBytes "\"\\u00\"" ++ [0]) := by decide

/-- C4 counterexample: a 32-bit attribute with payload 0xFFFFFFFF does not
render as the claimed `4294967295`. -/
theorem C4_unsigned_rendering_refuted :
    blobmsg_format_json_with_cb (.int32 [] 4294967295) false none []
    ≠ some (strBytes "4294967295" ++ [0]) := by decide

/-- C5 evidence: formatting an unnamed 8-bit attribute with value 25
(capacity hint 1) under an oracle whose growth `realloc` fails: the failing
`blobmsg_puts` returns `false`, every call site discards it, the `!s.len`
check cannot fire (the capacity was already bumped to 17), and the call
returns a 1-byte buffer — uninitialized in C — instead of the claimed
no-output result. -/
theorem C5_alloc_failure_not_propagated :
    blobmsg_format_json_with_cb (.int8 [] 25) false none [true, false] = some [0]
    ∧ blobmsg_format_json_with_cb (.int8 [] 25) false none [true, false] ≠ none := by
  decide

/-- C6 counterexample: encoding the empty object gives an empty attribute
sequence, and formatting it as a list returns the text `{  }` — not the
no-output value: the final check tests the capacity (which the first
append grew to 16), not the number of bytes written. -/
theorem C6_empty_list_not_no_output :
    blobmsg_format_json_with_cb (.table [] .nil) true none []
      = some (strBytes "{  }" ++ [0])
    ∧ blobmsg_format_json_with_cb (.table [] .nil) true none [] ≠ none := by decide

/-- C7: `blobmsg_add_json_from_string` fails and appends nothing both on a
parse failure and on a successful parse whose root is not an object. -/
theorem C7_non_object_root_rejected (o : List Bool) (root : JsonNode)
    (h : root.isObjectRoot = false) :
    blobmsg_add_json_from_string none o = (.nil, false, o)
    ∧ blobmsg_add_json_from_string (some root) o = (.nil, false, o) := by
  refine ⟨rfl, ?_⟩
  cases root <;> simp_all [blobmsg_add_json_from_string, JsonNode.isObjectRoot]

/-- C7 witness: the array root `[1,2]` is rejected with the container left
untouched. -/
theorem C7_witness :
    blobmsg_add_json_from_string
      (some (.array (.cons (.int 1) (.cons (.int 2) .nil)))) [] = (.nil, false, []) :=
  (C7_non_object_root_rejected []
    (.array (.cons (.int 1) (.cons (.int 2) .nil))) rfl).2

/-- C10: for string, boolean and integer nodes `blobmsg_add_json_element`
returns `true` for every allocation oracle — in particular under `[false]`,
where the container append primitive fails and nothing is appended, it still
reports success — while a NULL node or an unsupported kind returns `false`
without appending. -/
theorem C10_scalar_result_unconditional (name sv : List Nat) (b : Bool) (i : Int)
    (o : List Bool) :
    (blobmsg_add_json_element name (.str sv) o).2.1 = true
    ∧ (blobmsg_add_json_element name (.bool b) o).2.1 = true
    ∧ (blobmsg_add_json_element name (.int i) o).2.1 = true
    ∧ blobmsg_add_json_element name (.str sv) [false] = (.nil, true, [])
    ∧ blobmsg_add_json_element name .null o = (.nil, false, o)
    ∧ blobmsg_add_json_element name .double o = (.nil, false, o) := by
  refine ⟨?_, ?_, ?_, ?_, rfl, rfl⟩ <;>
    simp [blobmsg_add_json_element, blobmsg_add_string, blobmsg_add_u8, blobmsg_add_u32,
      oracleNext]

/-- Invariant of a formatting pass under the all-success allocation oracle:
the oracle is exhausted (all remaining allocations succeed), the buffer
pointer is non-NULL, and the cursor lies within the modelled block. -/
def Good (s : Strbuf) : Prop :=
  s.oracle = [] ∧ ∃ l, s.buf = some l ∧ s.pos ≤ l.length

theorem memWrite_length (l : List Nat) (pos : Nat) (c : List Nat) :
    pos + c.length ≤ (memWrite l pos c).length := by
  simp only [memWrite, List.length_append, List.length_take, List.length_replicate,
    List.length_drop]
  omega

theorem blobmsg_puts_good (s : Strbuf) (c : List Nat) (h : Good s) :
    Good (blobmsg_puts s c).1 ∧ s.len ≤ (blobmsg_puts s c).1.len := by
  obtain ⟨ho, l, hb, hp⟩ := h
  unfold blobmsg_puts
  by_cases hc : c.length = 0
  · simp only [hc, if_true]
    exact ⟨⟨ho, l, hb, hp⟩, le_refl _⟩
  · simp only [hc, if_false, ho, oracleNext, reallocFn, if_true, Bool.not_true]
    by_cases hg : s.pos + c.length ≥ s.len
    · simp only [hg, if_true, if_false, Bool.not_true]
      refine ⟨⟨rfl, _, rfl, ?_⟩, by simp⟩
      exact memWrite_length _ _ _
    · simp only [hg, if_false]
      refine ⟨⟨ho, _, rfl, ?_⟩, le_refl _⟩
      simpa [hb] using memWrite_length l s.pos c

theorem blobmsg_puts_len_pos (s : Strbuf) (c : List Nat) (hc : c ≠ []) :
    0 < (blobmsg_puts s c).1.len := by
  have hc' : c.length ≠ 0 := by simpa using hc
  unfold blobmsg_puts
  by_cases hg : s.pos + c.length ≥ s.len
  · rcases hok : oracleNext s.oracle with ⟨ok, o⟩
    cases ok
    · simp only [hc', if_false, hok]
      rw [if_pos hg]
      show 0 < s.len + 16
      omega
    · simp only [hc', if_false, hok]
      rw [if_pos hg]
      show 0 < s.len + 16
      omega
  · simp only [hc', if_false]
    rw [if_neg hg]
    show 0 < s.len
    omega

/-- With the all-success oracle, a non-empty-capacity buffer finalizes to the
bytes written so far plus the written terminator (the shrink keeps exactly
`pos` bytes and `buf[pos]` becomes 0). -/
theorem strbufFinalize_good (s : Strbuf) (h : Good s) (hl : s.len ≠ 0) :
    strbufFinalize s = some ((s.buf.getD []).take s.pos ++ [0]) := by
  obtain ⟨ho, l, hb, hp⟩ := h
  simp only [strbufFinalize, hl, if_false, ho, oracleNext, reallocFn, if_true, hb,
    Option.getD_some]
  have hlt : s.pos < (List.take (s.pos + 1) (l ++ List.replicate (s.pos + 1) 0)).length := by
    simp only [List.length_take, List.length_append, List.length_replicate]
    omega
  rw [List.set_eq_take_append_cons_drop, if_pos hlt]
  have hdrop : (List.take (s.pos + 1) (l ++ List.replicate (s.pos + 1) 0)).drop (s.pos + 1)
      = [] := by
    apply List.drop_eq_nil_of_le
    simp only [List.length_take, List.length_append, List.length_replicate]
    omega
  have htake : (List.take (s.pos + 1) (l ++ List.replicate (s.pos + 1) 0)).take s.pos
      = l.take s.pos := by
    rw [List.take_take, min_eq_left (Nat.le_succ _), List.take_append_eq_append_take]
    have h2 : s.pos - l.length = 0 := by omega
    rw [h2]
    simp
  rw [hdrop, htake]


/-- The state of a single `blobmsg_puts` into a freshly allocated buffer of
capacity `cap`: the bytes land at offset 0 and the capacity grows by one
increment exactly when the write reaches it. -/
theorem blobmsg_puts_fresh (cap : Nat) (c : List Nat) :
    (blobmsg_puts { len := cap, pos := 0, buf := some (List.replicate cap 0), oracle := [] } c).1
    = if c.length = 0 then
        { len := cap, pos := 0, buf := some (List.replicate cap 0), oracle := [] }
      else if cap ≤ c.length then
        { len := cap + 16, pos := c.length,
          buf := some (c ++ List.replicate (cap + 16 - c.length) 0), oracle := [] }
      else
        { len := cap, pos := c.length,
          buf := some (c ++ List.replicate (cap - c.length) 0), oracle := [] } := by
  by_cases hc : c.length = 0
  · simp [blobmsg_puts, hc]
  · by_cases hg : cap ≤ c.length
    · have hR : List.take (cap + 16) (List.replicate cap 0 ++ List.replicate (cap + 16) 0)
          = List.replicate (cap + 16) (0 : Nat) := by
        rw [← List.replicate_add, List.take_replicate]
        congr 1
        omega
      simp only [blobmsg_puts, hc, if_false, oracleNext, reallocFn, if_true,
        Option.getD_some, Bool.not_true]
      rw [if_pos (by omega : 0 + c.length ≥ cap)]
      simp [hR, memWrite, hg, List.drop_replicate]
    · simp only [blobmsg_puts, hc, if_false, oracleNext, reallocFn, if_true,
        Option.getD_some, Bool.not_true]
      rw [if_neg (by omega : ¬(0 + c.length ≥ cap))]
      simp [memWrite, hg, List.drop_replicate]


/-- A pass that performs one single append into a fresh buffer of non-zero
capacity finalizes to those bytes plus the terminator. -/
theorem strbufFinalize_puts_fresh (cap : Nat) (c : List Nat) (h : 0 < cap) :
    strbufFinalize
      (blobmsg_puts { len := cap, pos := 0, buf := some (List.replicate cap 0), oracle := [] } c).1
    = some (c ++ [0]) := by
  rw [blobmsg_puts_fresh]
  by_cases hc : c.length = 0
  · have hcnil : c = [] := List.length_eq_zero.mp hc
    rw [if_pos hc]
    rw [strbufFinalize_good _ ⟨rfl, _, rfl, by simp⟩ (by show cap ≠ 0; omega)]
    simp [hcnil]
  · by_cases hg : cap ≤ c.length
    · rw [if_neg hc, if_pos hg]
      rw [strbufFinalize_good _ ⟨rfl, _, rfl, by simp⟩ (by show cap + 16 ≠ 0; omega)]
      simp [List.take_append_eq_append_take, List.take_of_length_le (Nat.le_refl c.length)]
    · rw [if_neg hc, if_neg hg]
      rw [strbufFinalize_good _ ⟨rfl, _, rfl, by simp⟩ (by show cap ≠ 0; omega)]
      simp [List.take_append_eq_append_take, List.take_of_length_le (Nat.le_refl c.length)]

/-- C4 amended: the default rendering of a well-formed unnamed integer
attribute is decimal text, read as unsigned for the 8- and 16-bit widths
(the promoted `uint8_t`/`uint16_t` values) but as the *signed* two's
complement reinterpretation for the 32- and 64-bit widths (`%d`/`%lld`
consume the payload as `int`/`long long`). -/
theorem C4_default_integer_rendering (v : Nat) :
    (v < 2 ^ 8 →
      blobmsg_format_json_with_cb (.int8 [] v) false none []
        = some ((toString v).toList.map Char.toNat ++ [0]))
    ∧ (v < 2 ^ 16 →
      blobmsg_format_json_with_cb (.int16 [] v) false none []
        = some ((toString v).toList.map Char.toNat ++ [0]))
    ∧ (v < 2 ^ 32 →
      blobmsg_format_json_with_cb (.int32 [] v) false none []
        = some ((toString (if v < 2 ^ 31 then (v : Int) else (v : Int) - 2 ^ 32)).toList.map
            Char.toNat ++ [0]))
    ∧ (v < 2 ^ 64 →
      blobmsg_format_json_with_cb (.int64 [] v) false none []
        = some ((toString (if v < 2 ^ 63 then (v : Int) else (v : Int) - 2 ^ 64)).toList.map
            Char.toNat ++ [0])) := by
  refine ⟨fun _ => ?_, fun _ => ?_, fun _ => ?_, fun _ => ?_⟩
  · have h := strbufFinalize_puts_fresh 1 (sprintfU v) (by omega)
    simpa [blobmsg_format_json_with_cb, blobmsg_format_element, blobmsg_check_attr, hookValue,
      oracleNext, blob_len, sprintfU, BlobAttr.name] using h
  · have h := strbufFinalize_puts_fresh 2 (sprintfU v) (by omega)
    simpa [blobmsg_format_json_with_cb, blobmsg_format_element, blobmsg_check_attr, hookValue,
      oracleNext, blob_len, sprintfU, BlobAttr.name] using h
  · have h := strbufFinalize_puts_fresh 4 (sprintfD32 v) (by omega)
    simpa [blobmsg_format_json_with_cb, blobmsg_format_element, blobmsg_check_attr, hookValue,
      oracleNext, blob_len, sprintfD32, BlobAttr.name] using h
  · have h := strbufFinalize_puts_fresh 8 (sprintfD64 v) (by omega)
    simpa [blobmsg_format_json_with_cb, blobmsg_format_element, blobmsg_check_attr, hookValue,
      oracleNext, blob_len, sprintfD64, BlobAttr.name] using h

/-- C4 witness: the four widths at their maximal payloads — the 8/16-bit
attributes render unsigned (255, 65535), the 32/64-bit ones render as -1. -/
theorem C4_default_integer_rendering_witness :
    blobmsg_format_json_with_cb (.int8 [] 255) false none []
      = some ((toString (255 : Nat)).toList.map Char.toNat ++ [0])
    ∧ blobmsg_format_json_with_cb (.int16 [] 65535) false none []
      = some ((toString (65535 : Nat)).toList.map Char.toNat ++ [0])
    ∧ blobmsg_format_json_with_cb (.int32 [] 4294967295) false none []
      = some ((toString (if (4294967295 : Nat) < 2 ^ 31 then ((4294967295 : Nat) : Int)
          else ((4294967295 : Nat) : Int) - 2 ^ 32)).toList.map Char.toNat ++ [0])
    ∧ blobmsg_format_json_with_cb (.int64 [] 18446744073709551615) false none []
      = some ((toString (if (18446744073709551615 : Nat) < 2 ^ 63
          then ((18446744073709551615 : Nat) : Int)
          else ((18446744073709551615 : Nat) : Int) - 2 ^ 64)).toList.map Char.toNat ++ [0]) :=
  ⟨(C4_default_integer_rendering 255).1 (by norm_num),
   (C4_default_integer_rendering 65535).2.1 (by norm_num),
   (C4_default_integer_rendering 4294967295).2.2.1 (by norm_num),
   (C4_default_integer_rendering 18446744073709551615).2.2.2 (by norm_num)⟩

/-- C9: for every unnamed scalar attribute, a bound custom formatter is
consulted before default rendering: if it returns replacement text, exactly
that text is appended (plus the terminator the pass always writes) and no
default rendering happens; if it declines, the pass is identical to one with
no custom formatter bound. -/
theorem C9_custom_formatter_hook (a : BlobAttr) (f : BlobAttr → Option (List Nat))
    (hs : a.isScalar = true) (hn : a.name = []) :
    (∀ t, f a = some t →
      blobmsg_format_json_with_cb a false (some f) [] = some (t ++ [0]))
    ∧ (f a = none →
      blobmsg_format_json_with_cb a false (some f) []
        = blobmsg_format_json_with_cb a false none []) := by
  constructor
  · intro t ht
    cases a with
    | int8 n v =>
      simp only [BlobAttr.name] at hn
      subst hn
      have h := strbufFinalize_puts_fresh 1 t (by omega)
      simpa [blobmsg_format_json_with_cb, blobmsg_format_element, blobmsg_check_attr, hookValue,
        oracleNext, blob_len, ht, BlobAttr.name] using h
    | int16 n v =>
      simp only [BlobAttr.name] at hn
      subst hn
      have h := strbufFinalize_puts_fresh 2 t (by omega)
      simpa [blobmsg_format_json_with_cb, blobmsg_format_element, blobmsg_check_attr, hookValue,
        oracleNext, blob_len, ht, BlobAttr.name] using h
    | int32 n v =>
      simp only [BlobAttr.name] at hn
      subst hn
      have h := strbufFinalize_puts_fresh 4 t (by omega)
      simpa [blobmsg_format_json_with_cb, blobmsg_format_element, blobmsg_check_attr, hookValue,
        oracleNext, blob_len, ht, BlobAttr.name] using h
    | int64 n v =>
      simp only [BlobAttr.name] at hn
      subst hn
      have h := strbufFinalize_puts_fresh 8 t (by omega)
      simpa [blobmsg_format_json_with_cb, blobmsg_format_element, blobmsg_check_attr, hookValue,
        oracleNext, blob_len, ht, BlobAttr.name] using h
    | str n sv =>
      simp only [BlobAttr.name] at hn
      subst hn
      have h := strbufFinalize_puts_fresh (sv.length + 1) t (by omega)
      simpa [blobmsg_format_json_with_cb, blobmsg_format_element, blobmsg_check_attr, hookValue,
        oracleNext, blob_len, ht, BlobAttr.name] using h
    | array n cs => simp [BlobAttr.isScalar] at hs
    | table n cs => simp [BlobAttr.isScalar] at hs
  · intro hnone
    cases a with
    | int8 n v =>
      simp [blobmsg_format_json_with_cb, blobmsg_format_element, blobmsg_check_attr, hookValue,
        oracleNext, hnone]
    | int16 n v =>
      simp [blobmsg_format_json_with_cb, blobmsg_format_element, blobmsg_check_attr, hookValue,
        oracleNext, hnone]
    | int32 n v =>
      simp [blobmsg_format_json_with_cb, blobmsg_format_element, blobmsg_check_attr, hookValue,
        oracleNext, hnone]
    | int64 n v =>
      simp [blobmsg_format_json_with_cb, blobmsg_format_element, blobmsg_check_attr, hookValue,
        oracleNext, hnone]
    | str n sv =>
      simp [blobmsg_format_json_with_cb, blobmsg_format_element, blobmsg_check_attr, hookValue,
        oracleNext, hnone]
    | array n cs => simp [BlobAttr.isScalar] at hs
    | table n cs => simp [BlobAttr.isScalar] at hs

/-- C9 witness: a hook replacing the value of an 8-bit attribute with `X`
produces exactly `X`, and a declining hook on a string attribute reproduces
the no-hook output. -/
theorem C9_custom_formatter_hook_witness :
    blobmsg_format_json_with_cb (.int8 [] 7) false
        (some (fun _ => some (strBytes "X"))) []
      = some (strBytes "X" ++ [0])
    ∧ blobmsg_format_json_with_cb (.str [] (strBytes "hi")) false
        (some (fun _ => none)) []
      = blobmsg_format_json_with_cb (.str [] (strBytes "hi")) false none [] :=
  ⟨(C9_custom_formatter_hook (.int8 [] 7) (fun _ => some (strBytes "X")) rfl rfl).1
      (strBytes "X") rfl,
   (C9_custom_formatter_hook (.str [] (strBytes "hi")) (fun _ => none) rfl rfl).2 rfl⟩

theorem BlobAttrList.append_assoc : ∀ (xs ys zs : BlobAttrList),
    (xs.append ys).append zs = xs.append (ys.append zs)
  | .nil, _, _ => rfl
  | .cons a xs, ys, zs => by
    simp [BlobAttrList.append, BlobAttrList.append_assoc xs ys zs]

mutual
theorem blobmsg_add_json_element_oracle_nil : ∀ (n : List Nat) (v : JsonNode),
    (blobmsg_add_json_element n v []).2.2 = []
  | n, .object ms => by
    have ho := blobmsg_add_object_oracle_nil ms
    rcases h : blobmsg_add_object ms [] with ⟨cs, ret, o⟩
    rw [h] at ho
    simpa [blobmsg_add_json_element, h] using ho
  | n, .array xs => by
    have ho := blobmsg_add_array_oracle_nil xs
    rcases h : blobmsg_add_array xs [] with ⟨cs, ret, o⟩
    rw [h] at ho
    simpa [blobmsg_add_json_element, h] using ho
  | n, .str v => by simp [blobmsg_add_json_element, blobmsg_add_string, oracleNext]
  | n, .bool b => by simp [blobmsg_add_json_element, blobmsg_add_u8, oracleNext]
  | n, .int i => by simp [blobmsg_add_json_element, blobmsg_add_u32, oracleNext]
  | n, .null => rfl
  | n, .double => rfl

theorem blobmsg_add_object_oracle_nil : ∀ (ms : JMembers),
    (blobmsg_add_object ms []).2.2 = []
  | .nil => rfl
  | .cons k v rest => by
    have he := blobmsg_add_json_element_oracle_nil k v
    rcases h1 : blobmsg_add_json_element k v [] with ⟨as1, ret, o⟩
    rw [h1] at he
    simp only at he
    subst he
    cases ret
    · simp [blobmsg_add_object, h1]
    · have hr := blobmsg_add_object_oracle_nil rest
      rcases h2 : blobmsg_add_object rest [] with ⟨as2, ret2, o2⟩
      rw [h2] at hr
      simp only at hr
      subst hr
      simp [blobmsg_add_object, h1, h2]

theorem blobmsg_add_array_oracle_nil : ∀ (xs : JElems),
    (blobmsg_add_array xs []).2.2 = []
  | .nil => rfl
  | .cons v rest => by
    have he := blobmsg_add_json_element_oracle_nil [] v
    rcases h1 : blobmsg_add_json_element [] v [] with ⟨as1, ret, o⟩
    rw [h1] at he
    simp only at he
    subst he
    cases ret
    · simp [blobmsg_add_array, h1]
    · have hr := blobmsg_add_array_oracle_nil rest
      rcases h2 : blobmsg_add_array rest [] with ⟨as2, ret2, o2⟩
      rw [h2] at hr
      simp only at hr
      subst hr
      simp [blobmsg_add_array, h1, h2]
end

theorem blobmsg_add_object_append_fail :
    ∀ (pre : JMembers) (k : List Nat) (bad : JsonNode) (post : JMembers),
      pre.allOk = true → (blobmsg_add_json_element k bad []).2.1 = false →
      blobmsg_add_object (pre.append (.cons k bad post)) []
        = ((pre.encoded).append (blobmsg_add_json_element k bad []).1, false, [])
  | .nil, k, bad, post, _, hbad => by
    have ho := blobmsg_add_json_element_oracle_nil k bad
    rcases h1 : blobmsg_add_json_element k bad [] with ⟨as1, ret, o⟩
    rw [h1] at ho hbad
    simp only at ho hbad
    subst ho
    subst hbad
    simp [JMembers.append, blobmsg_add_object, h1, JMembers.encoded, BlobAttrList.append]
  | .cons k0 v0 r, k, bad, post, hok, hbad => by
    simp only [JMembers.allOk, Bool.and_eq_true] at hok
    have ho := blobmsg_add_json_element_oracle_nil k0 v0
    rcases h1 : blobmsg_add_json_element k0 v0 [] with ⟨as1, ret, o⟩
    rw [h1] at ho hok
    simp only at ho
    subst ho
    rcases hok with ⟨hok1, hok2⟩
    simp only at hok1
    subst hok1
    have hr := blobmsg_add_object_append_fail r k bad post hok2 hbad
    simp [JMembers.append, blobmsg_add_object, h1, hr, JMembers.encoded,
      BlobAttrList.append_assoc]

theorem blobmsg_add_array_append_fail :
    ∀ (pre : JElems) (bad : JsonNode) (post : JElems),
      pre.allOk = true → (blobmsg_add_json_element [] bad []).2.1 = false →
      blobmsg_add_array (pre.append (.cons bad post)) []
        = ((pre.encoded).append (blobmsg_add_json_element [] bad []).1, false, [])
  | .nil, bad, post, _, hbad => by
    have ho := blobmsg_add_json_element_oracle_nil [] bad
    rcases h1 : blobmsg_add_json_element [] bad [] with ⟨as1, ret, o⟩
    rw [h1] at ho hbad
    simp only at ho hbad
    subst ho
    subst hbad
    simp [JElems.append, blobmsg_add_array, h1, JElems.encoded, BlobAttrList.append]
  | .cons v0 r, bad, post, hok, hbad => by
    simp only [JElems.allOk, Bool.and_eq_true] at hok
    have ho := blobmsg_add_json_element_oracle_nil [] v0
    rcases h1 : blobmsg_add_json_element [] v0 [] with ⟨as1, ret, o⟩
    rw [h1] at ho hok
    simp only at ho
    subst ho
    rcases hok with ⟨hok1, hok2⟩
    simp only at hok1
    subst hok1
    have hr := blobmsg_add_array_append_fail r bad post hok2 hbad
    simp [JElems.append, blobmsg_add_array, h1, hr, JElems.encoded,
      BlobAttrList.append_assoc]

/-- C8: when a member of an object (or an element of an array) fails to
encode, the encoder stops there — later members are not encoded — and
propagates `false`, but the opened table/array scope is still closed and
committed, containing the successfully encoded earlier siblings followed by
whatever the failing member wrote. -/
theorem C8_scope_closed_on_member_failure :
    (∀ (name k : List Nat) (pre : JMembers) (bad : JsonNode) (post : JMembers),
      pre.allOk = true → (blobmsg_add_json_element k bad []).2.1 = false →
      blobmsg_add_json_element name (.object (pre.append (.cons k bad post))) []
        = (.cons (.table name
            ((pre.encoded).append (blobmsg_add_json_element k bad []).1)) .nil,
           false, []))
    ∧ (∀ (name : List Nat) (pre : JElems) (bad : JsonNode) (post : JElems),
      pre.allOk = true → (blobmsg_add_json_element [] bad []).2.1 = false →
      blobmsg_add_json_element name (.array (pre.append (.cons bad post))) []
        = (.cons (.array name
            ((pre.encoded).append (blobmsg_add_json_element [] bad []).1)) .nil,
           false, [])) := by
  constructor
  · intro name k pre bad post hok hbad
    have h := blobmsg_add_object_append_fail pre k bad post hok hbad
    simp [blobmsg_add_json_element, h]
  · intro name pre bad post hok hbad
    have h := blobmsg_add_array_append_fail pre bad post hok hbad
    simp [blobmsg_add_json_element, h]

/-- C8 witness: inside `{"t": {"a":1, "z":null, "b":true}}`-style content the
NULL member `z` aborts the table, `a` stays committed inside the closed
scope, `b` is never encoded, and the element reports failure. -/
theorem C8_scope_closed_on_member_failure_witness :
    blobmsg_add_json_element (strBytes "t")
      (.object ((JMembers.cons (strBytes "a") (.int 1) .nil).append
        (.cons (strBytes "z") .null (.cons (strBytes "b") (.bool true) .nil)))) []
    = (.cons (.table (strBytes "t")
        (((JMembers.cons (strBytes "a") (.int 1) .nil).encoded).append
          (blobmsg_add_json_element (strBytes "z") .null []).1)) .nil,
       false, []) :=
  C8_scope_closed_on_member_failure.1 (strBytes "t") (strBytes "z")
    (.cons (strBytes "a") (.int 1) .nil) .null
    (.cons (strBytes "b") (.bool true) .nil) (by decide) (by decide)

theorem blobmsg_format_string_loop_good :
    ∀ (rest pending : List Nat) (s : Strbuf), Good s →
      Good (blobmsg_format_string_loop s pending rest)
      ∧ s.len ≤ (blobmsg_format_string_loop s pending rest).len
  | [], pending, s, h => by
    simpa [blobmsg_format_string_loop] using blobmsg_puts_good s pending h
  | b :: rest, pending, s, h => by
    cases he : escChar b with
    | none =>
      have hr := blobmsg_format_string_loop_good rest (pending ++ [b]) s h
      constructor
      · simp only [blobmsg_format_string_loop, he]
        exact hr.1
      · simp only [blobmsg_format_string_loop, he]
        exact hr.2
    | some e =>
      have h1 := blobmsg_puts_good s pending h
      have h2 := blobmsg_puts_good (blobmsg_puts s pending).1 (escBytes e) h1.1
      have h3 := blobmsg_format_string_loop_good rest []
        (blobmsg_puts (blobmsg_puts s pending).1 (escBytes e)).1 h2.1
      constructor
      · simp only [blobmsg_format_string_loop, he]
        exact h3.1
      · simp only [blobmsg_format_string_loop, he]
        exact le_trans h1.2 (le_trans h2.2 h3.2)

theorem blobmsg_format_string_good (s : Strbuf) (str : List Nat) (h : Good s) :
    Good (blobmsg_format_string s str) ∧ s.len ≤ (blobmsg_format_string s str).len := by
  have h1 := blobmsg_puts_good s [34] h
  have h2 := blobmsg_format_string_loop_good str [] (blobmsg_puts s [34]).1 h1.1
  have h3 := blobmsg_puts_good
    (blobmsg_format_string_loop (blobmsg_puts s [34]).1 [] str) [34] h2.1
  constructor
  · simp only [blobmsg_format_string]
    exact h3.1
  · simp only [blobmsg_format_string]
    exact le_trans h1.2 (le_trans h2.2 h3.2)

theorem blobmsg_format_string_len_pos (s : Strbuf) (str : List Nat) :
    0 < (blobmsg_format_string s str).len := by
  simp only [blobmsg_format_string]
  exact blobmsg_puts_len_pos _ [34] (by simp)

/-- The name-prefix step of `blobmsg_format_element` preserves the buffer
invariant and never shrinks the capacity. -/
theorem blobmsg_prefix_good (s : Strbuf) (b : Bool) (nm : List Nat) (h : Good s) :
    Good (if b then (blobmsg_puts (blobmsg_format_string s nm) [58]).1 else s)
    ∧ s.len ≤ (if b then (blobmsg_puts (blobmsg_format_string s nm) [58]).1 else s).len := by
  cases b
  · rw [if_neg (by simp)]
    exact ⟨h, le_refl _⟩
  · rw [if_pos rfl]
    have h1 := blobmsg_format_string_good s nm h
    have h2 := blobmsg_puts_good _ [58] h1.1
    exact ⟨h2.1, le_trans h1.2 h2.2⟩

/-- A conditional separator write preserves the buffer invariant and never
shrinks the capacity. -/
theorem ite_puts_good (s : Strbuf) (b : Bool) (c : List Nat) (h : Good s) :
    Good (if b then (blobmsg_puts s c).1 else s)
    ∧ s.len ≤ (if b then (blobmsg_puts s c).1 else s).len := by
  cases b
  · rw [if_neg (by simp)]
    exact ⟨h, le_refl _⟩
  · rw [if_pos rfl]
    exact blobmsg_puts_good s c h

mutual
theorem blobmsg_format_element_good :
    ∀ (a : BlobAttr) (s : Strbuf) (cb : FormatCb) (arr head : Bool), Good s →
      Good (blobmsg_format_element s cb a arr head)
      ∧ s.len ≤ (blobmsg_format_element s cb a arr head).len
  | .int8 n v, s, cb, arr, head, h => by
    unfold blobmsg_format_element
    rw [if_neg (by simp [blobmsg_check_attr])]
    have hp := blobmsg_prefix_good s
      (!arr && !(BlobAttr.name (BlobAttr.int8 n v)).isEmpty)
      (BlobAttr.name (BlobAttr.int8 n v)) h
    cases hk : hookValue cb (BlobAttr.int8 n v) head with
    | some t =>
      have h2 := blobmsg_puts_good _ t hp.1
      exact ⟨h2.1, le_trans hp.2 h2.2⟩
    | none =>
      have h2 := blobmsg_puts_good _ (sprintfU v) hp.1
      exact ⟨h2.1, le_trans hp.2 h2.2⟩
  | .int16 n v, s, cb, arr, head, h => by
    unfold blobmsg_format_element
    rw [if_neg (by simp [blobmsg_check_attr])]
    have hp := blobmsg_prefix_good s
      (!arr && !(BlobAttr.name (BlobAttr.int16 n v)).isEmpty)
      (BlobAttr.name (BlobAttr.int16 n v)) h
    cases hk : hookValue cb (BlobAttr.int16 n v) head with
    | some t =>
      have h2 := blobmsg_puts_good _ t hp.1
      exact ⟨h2.1, le_trans hp.2 h2.2⟩
    | none =>
      have h2 := blobmsg_puts_good _ (sprintfU v) hp.1
      exact ⟨h2.1, le_trans hp.2 h2.2⟩
  | .int32 n v, s, cb, arr, head, h => by
    unfold blobmsg_format_element
    rw [if_neg (by simp [blobmsg_check_attr])]
    have hp := blobmsg_prefix_good s
      (!arr && !(BlobAttr.name (BlobAttr.int32 n v)).isEmpty)
      (BlobAttr.name (BlobAttr.int32 n v)) h
    cases hk : hookValue cb (BlobAttr.int32 n v) head with
    | some t =>
      have h2 := blobmsg_puts_good _ t hp.1
      exact ⟨h2.1, le_trans hp.2 h2.2⟩
    | none =>
      have h2 := blobmsg_puts_good _ (sprintfD32 v) hp.1
      exact ⟨h2.1, le_trans hp.2 h2.2⟩
  | .int64 n v, s, cb, arr, head, h => by
    unfold blobmsg_format_element
    rw [if_neg (by simp [blobmsg_check_attr])]
    have hp := blobmsg_prefix_good s
      (!arr && !(BlobAttr.name (BlobAttr.int64 n v)).isEmpty)
      (BlobAttr.name (BlobAttr.int64 n v)) h
    cases hk : hookValue cb (BlobAttr.int64 n v) head with
    | some t =>
      have h2 := blobmsg_puts_good _ t hp.1
      exact ⟨h2.1, le_trans hp.2 h2.2⟩
    | none =>
      have h2 := blobmsg_puts_good _ (sprintfD64 v) hp.1
      exact ⟨h2.1, le_trans hp.2 h2.2⟩
  | .str n sv, s, cb, arr, head, h => by
    unfold blobmsg_format_element
    rw [if_neg (by simp [blobmsg_check_attr])]
    have hp := blobmsg_prefix_good s
      (!arr && !(BlobAttr.name (BlobAttr.str n sv)).isEmpty)
      (BlobAttr.name (BlobAttr.str n sv)) h
    cases hk : hookValue cb (BlobAttr.str n sv) head with
    | some t =>
      have h2 := blobmsg_puts_good _ t hp.1
      exact ⟨h2.1, le_trans hp.2 h2.2⟩
    | none =>
      have h2 := blobmsg_format_string_good _ sv hp.1
      exact ⟨h2.1, le_trans hp.2 h2.2⟩
  | .array n cs, s, cb, arr, head, h => by
    unfold blobmsg_format_element
    rw [if_neg (by simp [blobmsg_check_attr])]
    have hp := blobmsg_prefix_good s
      (!arr && !(BlobAttr.name (BlobAttr.array n cs)).isEmpty)
      (BlobAttr.name (BlobAttr.array n cs)) h
    cases hk : hookValue cb (BlobAttr.array n cs) head with
    | some t =>
      have h2 := blobmsg_puts_good _ t hp.1
      exact ⟨h2.1, le_trans hp.2 h2.2⟩
    | none =>
      have h1 := blobmsg_puts_good _ [91, 32] hp.1
      have h2 := blobmsg_format_list_items_good cs _ cb true true h1.1
      have h3 := blobmsg_puts_good _ [32, 93] h2.1
      exact ⟨h3.1, le_trans hp.2 (le_trans h1.2 (le_trans h2.2 h3.2))⟩
  | .table n cs, s, cb, arr, head, h => by
    unfold blobmsg_format_element
    rw [if_neg (by simp [blobmsg_check_attr])]
    have hp := blobmsg_prefix_good s
      (!arr && !(BlobAttr.name (BlobAttr.table n cs)).isEmpty)
      (BlobAttr.name (BlobAttr.table n cs)) h
    cases hk : hookValue cb (BlobAttr.table n cs) head with
    | some t =>
      have h2 := blobmsg_puts_good _ t hp.1
      exact ⟨h2.1, le_trans hp.2 h2.2⟩
    | none =>
      have h1 := blobmsg_puts_good _ [123, 32] hp.1
      have h2 := blobmsg_format_list_items_good cs _ cb false true h1.1
      have h3 := blobmsg_puts_good _ [32, 125] h2.1
      exact ⟨h3.1, le_trans hp.2 (le_trans h1.2 (le_trans h2.2 h3.2))⟩

theorem blobmsg_format_list_items_good :
    ∀ (cs : BlobAttrList) (s : Strbuf) (cb : FormatCb) (arr first : Bool), Good s →
      Good (blobmsg_format_list_items s cb cs arr first)
      ∧ s.len ≤ (blobmsg_format_list_items s cb cs arr first).len
  | .nil, s, cb, arr, first, h => by
    unfold blobmsg_format_list_items
    exact ⟨h, le_refl _⟩
  | .cons a rest, s, cb, arr, first, h => by
    unfold blobmsg_format_list_items
    have h1 := ite_puts_good s (!first) [44, 32] h
    have h2 := blobmsg_format_element_good a _ cb arr false h1.1
    have h3 := blobmsg_format_list_items_good rest _ cb arr false h2.1
    exact ⟨h3.1, le_trans h1.2 (le_trans h2.2 h3.2)⟩
end

/-- The freshly allocated output state `blobmsg_format_json_with_cb` starts
from: capacity `cap`, cursor 0, a zeroed block, all allocations succeeding. -/
def freshStrbuf (cap : Nat) : Strbuf :=
  { len := cap, pos := 0, buf := some (List.replicate cap 0), oracle := [] }

/-- C6 amended: with no custom formatter and successful allocations, a
formatting pass always writes (the list pass writes its braces, every
well-formed element writes its rendering), so the capacity check `!s.len`
never fires and the result is never the no-output value: it is always a
buffer consisting of the written bytes plus the null terminator. -/
theorem C6_formatting_never_no_output (attr : BlobAttr) (list : Bool) :
    ∃ l, blobmsg_format_json_with_cb attr list none [] = some (l ++ [0]) := by
  have hg0 : Good (freshStrbuf (blob_len attr)) :=
    ⟨rfl, List.replicate (blob_len attr) 0, rfl, by simp [freshStrbuf]⟩
  cases list with
  | true =>
    have h1 := blobmsg_puts_good (freshStrbuf (blob_len attr)) [123, 32] hg0
    have h2 := blobmsg_format_list_items_good attr.children _ none false true h1.1
    have h3 := blobmsg_puts_good _ [32, 125] h2.1
    have hpos := blobmsg_puts_len_pos
      (blobmsg_format_list_items (blobmsg_puts (freshStrbuf (blob_len attr)) [123, 32]).1
        none attr.children false true) [32, 125] (by simp)
    exact ⟨_, strbufFinalize_good _ h3.1 (Nat.pos_iff_ne_zero.mp hpos)⟩
  | false =>
    have he := blobmsg_format_element_good attr (freshStrbuf (blob_len attr))
      none false false hg0
    have hpos : 0 < (blobmsg_format_element (freshStrbuf (blob_len attr))
        none attr false false).len := by
      cases attr with
      | int8 n v => have := he.2; simp only [blob_len, freshStrbuf] at this ⊢; omega
      | int16 n v => have := he.2; simp only [blob_len, freshStrbuf] at this ⊢; omega
      | int32 n v => have := he.2; simp only [blob_len, freshStrbuf] at this ⊢; omega
      | int64 n v => have := he.2; simp only [blob_len, freshStrbuf] at this ⊢; omega
      | str n sv => have := he.2; simp only [blob_len, freshStrbuf] at this ⊢; omega
      | array n cs => exact blobmsg_puts_len_pos _ [32, 93] (by simp)
      | table n cs => exact blobmsg_puts_len_pos _ [32, 125] (by simp)
    exact ⟨_, strbufFinalize_good _ he.1 (Nat.pos_iff_ne_zero.mp hpos)⟩
